import Mathlib

/-!
Shallow embedding of the audio-analysis core of the `ear` repository
(`src/script.js` and `src/osc-worker.js`).

Modelling conventions:
* JavaScript numbers are modelled as real numbers (`ℝ`); the contents of a
  `Float32Array` are modelled as a `List ℝ`.
* A JavaScript method that mutates `this` is embedded in state-passing style:
  it takes the receiver as an explicit argument and returns the updated
  receiver (together with its return value, when it has one).
* An out-of-range indexed read of a typed array (which yields `undefined` in
  JavaScript) is modelled with `List.getD _ _ 0`; theorems over this
  real-number model only exercise in-range reads.  Where a divergence through
  the error path matters, the JavaScript error semantics (`undefined`/`NaN`
  poisoning arithmetic) is modelled explicitly with `JsVal := Option ℝ`,
  `none` standing for a non-real result (`undefined` or `NaN`).
* JavaScript's `%` operator is remainder with the sign of the dividend, which
  on integers is `Int.tmod`; on the natural-number indices that actually occur
  it agrees with `Nat.mod`.
-/

namespace Ear

/-! ### RotatingAudioBuffer (src/osc-worker.js, class RotatingAudioBuffer) -/

/-- State of `RotatingAudioBuffer`: `this.length`, `this.buffer` (a
`Float32Array(length)`, zero-initialized), `this.writeIndex`. -/
structure RotatingAudioBuffer where
  length : ℕ
  buffer : List ℝ
  writeIndex : ℕ

/-- Embeds `new RotatingAudioBuffer(length)`. -/
def mkRotatingAudioBuffer (len : ℕ) : RotatingAudioBuffer :=
  { length := len, buffer := List.replicate len 0, writeIndex := 0 }

/-- One iteration of the loop body of `write`:
`this.buffer[this.writeIndex] = data[i]; this.writeIndex = (this.writeIndex + 1) % this.length;`. -/
def RotatingAudioBuffer.write1 (s : RotatingAudioBuffer) (x : ℝ) : RotatingAudioBuffer :=
  { length := s.length
    buffer := s.buffer.set s.writeIndex x
    writeIndex := (s.writeIndex + 1) % s.length }

/-- Embeds `write(data)`: the loop runs over the samples of `data` in order. -/
def RotatingAudioBuffer.write (s : RotatingAudioBuffer) (data : List ℝ) : RotatingAudioBuffer :=
  data.foldl RotatingAudioBuffer.write1 s

/-- The loop of `read`: at each step it copies `this.buffer[readIndex]` into the
target and advances `readIndex = (readIndex + 1) % this.length`.  The returned
list is the filled target buffer. -/
def RotatingAudioBuffer.readGo (buf : List ℝ) (len : ℕ) : ℕ → ℕ → List ℝ
  | _, 0 => []
  | r, n + 1 => buf.getD r 0 :: RotatingAudioBuffer.readGo buf len ((r + 1) % len) n

/-- Embeds `read(targetBuffer)`.  The initial index is
`(this.writeIndex - targetLength + this.length) % this.length` computed with
JavaScript remainder semantics (`Int.tmod`).  `read` assigns only to the
caller's target buffer and to the local `readIndex`, so the receiver is
returned unchanged. -/
def RotatingAudioBuffer.read (s : RotatingAudioBuffer) (targetLength : ℕ) :
    List ℝ × RotatingAudioBuffer :=
  let readIndex : ℤ :=
    ((s.writeIndex : ℤ) - targetLength + s.length).tmod (s.length : ℤ)
  (RotatingAudioBuffer.readGo s.buffer s.length readIndex.toNat targetLength, s)

/-! ### IIRBandBoostFilter (src/script.js, class IIRBandBoostFilter) -/

/-- State of one biquad: the five normalized coefficients and the Direct Form I
state variables `x1, x2, y1, y2`. -/
structure IIRBandBoostFilter where
  b0 : ℝ
  b1 : ℝ
  b2 : ℝ
  a1 : ℝ
  a2 : ℝ
  x1 : ℝ
  x2 : ℝ
  y1 : ℝ
  y2 : ℝ

/-- The derived center frequency `this.f0 = 440.0 * Math.pow(2, (midiNoteNumber - 69.0) / 12.0)`. -/
noncomputable def noteFreq (note : ℝ) : ℝ :=
  440 * (2 : ℝ) ^ ((note - 69) / 12)

open Classical in
/-- Embeds the `IIRBandBoostFilter` constructor.  When the center frequency is
out of range `(0, Fs/2)`, or the normalization denominator is zero, the
coefficients degenerate to the identity transform (`b0 = 1`, all others `0`);
otherwise they follow the RBJ peaking-EQ cookbook formulas of the source. -/
noncomputable def mkIIRBandBoostFilter (note Fs gain : ℝ) : IIRBandBoostFilter :=
  if noteFreq note ≤ 0 ∨ Fs / 2 ≤ noteFreq note then
    ⟨1, 0, 0, 0, 0, 0, 0, 0, 0⟩
  else
    let f0 := noteFreq note
    let w0 := 2 * Real.pi * f0 / Fs
    let cw := Real.cos w0
    let sw := Real.sin w0
    let rr : ℝ := (2 : ℝ) ^ ((25 : ℝ) / 1200)
    let q : ℝ := 1 / (rr - 1 / rr)
    let al : ℝ := sw / (2 * q)
    let bigA : ℝ := (10 : ℝ) ^ (gain / 20)
    let b0n := 1 + al * bigA
    let b1n := -2 * cw
    let b2n := 1 - al * bigA
    let a0d := 1 + al / bigA
    let a1n := -2 * cw
    let a2n := 1 - al / bigA
    if a0d = 0 then
      ⟨1, 0, 0, 0, 0, 0, 0, 0, 0⟩
    else
      ⟨b0n / a0d, b1n / a0d, b2n / a0d, a1n / a0d, a2n / a0d, 0, 0, 0, 0⟩

/-- Embeds `IIRBandBoostFilter.process(inputSample)`: computes
`y0 = b0*x0 + b1*x1 + b2*x2 - a1*y1 - a2*y2`, shifts the state variables, and
returns the output sample together with the updated filter. -/
def IIRBandBoostFilter.process (s : IIRBandBoostFilter) (x0 : ℝ) :
    ℝ × IIRBandBoostFilter :=
  let y0 := s.b0 * x0 + s.b1 * s.x1 + s.b2 * s.x2 - s.a1 * s.y1 - s.a2 * s.y2
  (y0, { s with x2 := s.x1, x1 := x0, y2 := s.y1, y1 := y0 })

/-- Runs a filter over a finite input stream, sample by sample. -/
def IIRBandBoostFilter.processList (s : IIRBandBoostFilter) (xs : List ℝ) :
    IIRBandBoostFilter :=
  xs.foldl (fun t x => (t.process x).2) s

/-! ### DelayedIIRBandBoostFilterPair (src/script.js, class DelayedIIRBandBoostFilterPair) -/

/-- State of the two-phase estimator for one note. -/
structure DelayedIIRBandBoostFilterPair where
  filter1 : IIRBandBoostFilter
  filter2 : IIRBandBoostFilter
  filter1Out : ℝ
  filter2Out : ℝ
  delayBuffer : List ℝ
  delayIndex : ℕ
  powerMean : ℝ

/-- Embeds the `DelayedIIRBandBoostFilterPair` constructor: two identically
tuned filters, a zero-filled delay line of
`Math.round((Fs / f0) / 4)` samples (no lower clamp appears in the source),
`delayIndex = 0`, `powerMean = 0`. -/
noncomputable def mkDelayedPair (note Fs gain : ℝ) : DelayedIIRBandBoostFilterPair :=
  { filter1 := mkIIRBandBoostFilter note Fs gain
    filter2 := mkIIRBandBoostFilter note Fs gain
    filter1Out := 0
    filter2Out := 0
    delayBuffer := List.replicate (round (Fs / noteFreq note / 4)).toNat 0
    delayIndex := 0
    powerMean := 0 }

/-- Embeds `DelayedIIRBandBoostFilterPair.process(inputSample)`:
`filter1` processes the live sample, `filter2` processes the sample read from
the delay line, the delay line is overwritten with the live sample, the cursor
advances modulo the delay-line length, and `powerMean` is updated with
`alpha = 0.95`.  Returns `[filter1Out, filter2Out]` and the updated state.
This real-number model is faithful only for a non-empty delay line (then the
cursor always stays in range); for an empty delay line the source reads
`delayBuffer[0] = undefined` and all downstream arithmetic is NaN, a path
modelled separately by `DelayedPairJs.process` below. -/
def DelayedIIRBandBoostFilterPair.process (s : DelayedIIRBandBoostFilterPair)
    (x : ℝ) : (ℝ × ℝ) × DelayedIIRBandBoostFilterPair :=
  let r1 := s.filter1.process x
  let r2 := s.filter2.process (s.delayBuffer.getD s.delayIndex 0)
  let db := s.delayBuffer.set s.delayIndex x
  let nowPower := r1.1 ^ 2 + r2.1 ^ 2
  let alpha : ℝ := 0.95
  ((r1.1, r2.1),
    { filter1 := r1.2
      filter2 := r2.2
      filter1Out := r1.1
      filter2Out := r2.1
      delayBuffer := db
      delayIndex := (s.delayIndex + 1) % db.length
      powerMean := alpha * s.powerMean + (1 - alpha) * nowPower })

/-- Embeds `getInstantPower()`. -/
def DelayedIIRBandBoostFilterPair.getInstantPower
    (s : DelayedIIRBandBoostFilterPair) : ℝ :=
  s.powerMean

/-- Runs an estimator over a finite input stream, sample by sample. -/
def DelayedIIRBandBoostFilterPair.processList (s : DelayedIIRBandBoostFilterPair)
    (xs : List ℝ) : DelayedIIRBandBoostFilterPair :=
  xs.foldl (fun t x => (t.process x).2) s

/-! ### EarProcessor (src/script.js, class EarProcessor) -/

/-- Embeds the filter construction in the `EarProcessor` constructor:
`Array.from({length: 88}, (_, i) => new DelayedIIRBandBoostFilterPair(i + 21, sampleRate))`
(with the default `peakGainDB = 6.0`). -/
noncomputable def earFilters (Fs : ℝ) : List DelayedIIRBandBoostFilterPair :=
  (List.range 88).map (fun (i : ℕ) => mkDelayedPair ((i : ℕ) + 21 : ℝ) Fs 6)

/-- An arbitrary placeholder estimator, used only as the (unreachable)
out-of-range default of `List.getD` when indexing the 88-element filter list. -/
def defaultPair : DelayedIIRBandBoostFilterPair :=
  { filter1 := ⟨1, 0, 0, 0, 0, 0, 0, 0, 0⟩
    filter2 := ⟨1, 0, 0, 0, 0, 0, 0, 0, 0⟩
    filter1Out := 0
    filter2Out := 0
    delayBuffer := []
    delayIndex := 0
    powerMean := 0 }

/-- Embeds the fill loop of the `get-data` handler in the `EarProcessor`
constructor: `for (let i = 0; i < 88; ++i) data[i] = this.filters[i].getInstantPower();`. -/
def earFillPowerData (filters : List DelayedIIRBandBoostFilterPair) : List ℝ :=
  (List.range 88).map (fun i => (filters.getD i defaultPair).getInstantPower)

/-- Embeds the `get-data` branch of the `EarProcessor` message handler: if the
request carries no buffer it returns without replying; otherwise it fills the
buffer from the filters and posts `{message: 'data', buffer, requestId}` back. -/
def earHandleGetData (filters : List DelayedIIRBandBoostFilterPair)
    (requestId : ℕ) (buffer? : Option (List ℝ)) : Option (List ℝ × ℕ) :=
  match buffer? with
  | none => none
  | some _ => some (earFillPowerData filters, requestId)

/-- One sample fed to all filters, in index order: the inner loop
`for (let i = 0; i < 88; ++i) this.filters[i].process(inputSample)` of
`EarProcessor.process`. -/
def stepAllFilters (fs : List DelayedIIRBandBoostFilterPair) (x : ℝ) :
    List DelayedIIRBandBoostFilterPair :=
  fs.map (fun f => (f.process x).2)

/-- Embeds `EarProcessor.process` acting on the first input channel: if the
channel is absent or empty the call is a no-op; otherwise every sample of the
block, in order, is fed to all 88 estimators. -/
def earProcessChannel (block : List ℝ) (fs : List DelayedIIRBandBoostFilterPair) :
    List DelayedIIRBandBoostFilterPair :=
  if block.isEmpty then fs else block.foldl stepAllFilters fs

/-- Embeds `RotatingAudioBuffer.write` as it is actually called from
`OscWorker.process`: the argument `monoInput = input[0][0]` is a single
sample (a Number), not an array.  The loop
`for (let i = 0; i < data.length; i++)` then reads `data.length` on a Number,
which is `undefined`; `i < undefined` is `false`, so the loop body never runs
and the receiver is returned unchanged. -/
def RotatingAudioBuffer.writeNumberArg (s : RotatingAudioBuffer)
    (_monoInput : ℝ) : RotatingAudioBuffer :=
  s

/-- Embeds `OscWorker.process` acting on the first input channel: if the
channel is absent or empty the call is a no-op; otherwise the source passes
`input[0][0]` — the first sample of the channel, a Number, not the channel
itself (contrast `EarProcessor.process`, which uses `input[0]` as the
channel) — to `rotatingBuffer.write`, whose loop consequently runs zero
times. -/
def oscProcessChannel (block : List ℝ) (rb : RotatingAudioBuffer) :
    RotatingAudioBuffer :=
  if block.isEmpty then rb else rb.writeNumberArg (block.getD 0 0)

/-- The spec's `FilterBank` (spec §2): it owns the 88 estimators and the ring
buffer.  In the source the two halves live in two worklet processors fed from
the same audio stream: the estimators in `EarProcessor.process`
(src/script.js) and the ring buffer in `OscWorker.process`
(src/osc-worker.js). -/
structure FilterBank where
  filters : List DelayedIIRBandBoostFilterPair
  ringBuffer : RotatingAudioBuffer

/-- The spec's `FilterBank.processBlock`: one audio block delivered to both
halves, each embedded from its own source method. -/
def FilterBank.processBlock (fb : FilterBank) (block : List ℝ) : FilterBank :=
  { filters := earProcessChannel block fb.filters
    ringBuffer := oscProcessChannel block fb.ringBuffer }

/-! ### EarDataRequester / OscRender request bookkeeping (src/script.js) -/

/-- The bookkeeping state of a snapshot requester: the key set of
`this.pendingRequests` (a `Map` from request id to `{resolve, reject}`) and
`this.requestIdCounter`.  Only the ids matter for the settlement claims. -/
structure ReqState where
  pending : List ℕ
  counter : ℕ
deriving DecidableEq

/-- The initial requester state: empty map, counter `0`. -/
def initReqState : ReqState := ⟨[], 0⟩

/-- Observable settlement events produced by the requester: a promise being
resolved, a promise being rejected, or a warning logged for an unknown id. -/
inductive Ev where
  | resolved (j : ℕ)
  | rejected (j : ℕ)
  | warned (j : ℕ)
deriving DecidableEq

/-- `Map.set(k, v)` restricted to its effect on the key set: a `Map` keeps one
entry per key, so setting an existing key leaves the key set unchanged and
setting a fresh key appends it. -/
def mapSet (l : List ℕ) (k : ℕ) : List ℕ :=
  if k ∈ l then l else l ++ [k]

/-- Embeds `EarDataRequester.getEarPowerData` up to the settlement of the send:
the id is `requestIdCounter++`, the entry is `set` before the `try`; if
`postMessage` throws, the `catch` deletes the entry and rejects the promise. -/
def earRequestStep (s : ReqState) (mayThrow : Bool) : ReqState × List Ev :=
  let c := s.counter
  let p1 := mapSet s.pending c
  if mayThrow then (⟨p1.erase c, c + 1⟩, [Ev.rejected c])
  else (⟨p1, c + 1⟩, [])

/-- Embeds `OscRender._getOscData` up to the settlement of the send: the entry
is `set` before the `try`; on success it is `set` again after `postMessage`;
if `postMessage` throws, the `catch` block is empty, so nothing is deleted and
nothing is rejected. -/
def oscRequestStep (s : ReqState) (mayThrow : Bool) : ReqState × List Ev :=
  let c := s.counter
  let p1 := mapSet s.pending c
  if mayThrow then (⟨p1, c + 1⟩, [])
  else (⟨mapSet p1 c, c + 1⟩, [])

/-- The operations observable at the `EarDataRequester` boundary: issuing a
request (whose `postMessage` may throw), receiving a `data` response for an
id, and `destroy()`. -/
inductive ReqOp where
  | request (mayThrow : Bool)
  | response (j : ℕ)
  | destroy
deriving DecidableEq

/-- One step of the `EarDataRequester` state machine.
`response j` embeds `_handleWorkerMessage` on a `{message:'data', requestId:j}`
event: a pending id is deleted and resolved, an unknown id is logged
(`console.warn`) and discarded.  `destroy` embeds `destroy()`: every pending
request is rejected and the map is cleared. -/
def reqStep (s : ReqState) : ReqOp → ReqState × List Ev
  | .request mt => earRequestStep s mt
  | .response j =>
    if j ∈ s.pending then (⟨s.pending.erase j, s.counter⟩, [Ev.resolved j])
    else (s, [Ev.warned j])
  | .destroy => (⟨[], s.counter⟩, s.pending.map Ev.rejected)

/-- Runs a sequence of operations from a state, collecting events in order. -/
def reqRun (s : ReqState) : List ReqOp → ReqState × List Ev
  | [] => (s, [])
  | op :: ops =>
    let r1 := reqStep s op
    let r2 := reqRun r1.1 ops
    (r2.1, r1.2 ++ r2.2)

/-- Whether an event settles (resolves or rejects) the promise of id `j`. -/
def isSettle (j : ℕ) : Ev → Bool
  | .resolved k => k = j
  | .rejected k => k = j
  | .warned _ => false

/-- Number of events in `evs` that settle id `j`. -/
def settles (j : ℕ) (evs : List Ev) : ℕ :=
  evs.countP (isSettle j)

/-! ### OscWorker.handleMessage (src/osc-worker.js) -/

/-- A transferred `ArrayBuffer`, as posted by `OscRender._getOscData`
(`new ArrayBuffer(128 * Float32Array.BYTES_PER_ELEMENT)`). -/
structure JsArrayBuffer where
  byteLen : ℕ

/-- The JavaScript property access `buffer.length` on an `ArrayBuffer`:
`ArrayBuffer` exposes `byteLength` but has no `length` property, so the access
evaluates to `undefined` (modelled as `none`). -/
def jsArrayBufferLengthProp (_ : JsArrayBuffer) : Option ℕ := none

/-- A message arriving at `OscWorker.handleMessage`.  `OscRender._getOscData`
posts `{message: 'dump', buffer, requestId}` (note the key `message`, and a
transferred `ArrayBuffer` as `buffer`). -/
structure OscMsg where
  type? : Option String
  message? : Option String
  requestId? : Option ℕ
  buffer? : Option JsArrayBuffer

/-- The reply `OscWorker.handleMessage` would post:
`{type: 'dumped', buffer: writeArray.buffer}`.  It has no `requestId` field. -/
structure OscReply where
  type : String
  data : List ℝ

/-- Embeds `OscWorker.handleMessage`.  The handler fires only when
`event.data.type === 'dump'`; it then guards on `buffer && buffer.length > 0`.
`buffer` is an `ArrayBuffer`, whose `length` property is `undefined`, and
`undefined > 0` is `false` in JavaScript, so the guard can only pass if the
`length` access produced a positive number.  When the guard passes, the reply
buffer is filled by `rotatingBuffer.read` over the `Float32Array` view
(`byteLen / 4` elements). -/
def oscWorkerHandleMessage (rb : RotatingAudioBuffer) (m : OscMsg) :
    Option OscReply :=
  if m.type? = some "dump" then
    match m.buffer? with
    | none => none
    | some b =>
      match jsArrayBufferLengthProp b with
      | none => none
      | some n =>
        if 0 < n then some { type := "dumped", data := (rb.read (b.byteLen / 4)).1 }
        else none
  else none

/-! ### JavaScript error semantics for the estimator (NaN/undefined path)

The real-number model above is faithful while every delay-line read is in
range.  The source has no lower clamp on the delay-line length, so an empty
delay line is reachable (see the C2 counterexample); there the source reads
`this.delayBuffer[this.delayIndex]`, which is `undefined`, and every
arithmetic operation on `undefined` or `NaN` yields `NaN`.  The definitions
below mirror the same source lines under these JavaScript semantics, with
`none` standing for a non-real value (`undefined` or `NaN`). -/

/-- A JavaScript numeric value: `some r` is a real number, `none` is a
non-real result (`undefined` or `NaN`). -/
def JsVal : Type := Option ℝ

/-- JavaScript addition: any operation on `undefined`/`NaN` yields `NaN`. -/
def jsAdd (a b : JsVal) : JsVal :=
  match a, b with
  | some x, some y => some (x + y)
  | _, _ => none

/-- JavaScript subtraction: any operation on `undefined`/`NaN` yields `NaN`. -/
def jsSub (a b : JsVal) : JsVal :=
  match a, b with
  | some x, some y => some (x - y)
  | _, _ => none

/-- JavaScript multiplication: any operation on `undefined`/`NaN` yields `NaN`. -/
def jsMul (a b : JsVal) : JsVal :=
  match a, b with
  | some x, some y => some (x * y)
  | _, _ => none

/-- JavaScript exponentiation `x ** 2`. -/
def jsSq (a : JsVal) : JsVal := jsMul a a

/-- The biquad state with JavaScript numeric values. -/
structure IIRBandBoostFilterJs where
  b0 : JsVal
  b1 : JsVal
  b2 : JsVal
  a1 : JsVal
  a2 : JsVal
  x1 : JsVal
  x2 : JsVal
  y1 : JsVal
  y2 : JsVal

/-- A real-valued biquad viewed in the JavaScript value domain. -/
def IIRBandBoostFilterJs.ofIIR (s : IIRBandBoostFilter) : IIRBandBoostFilterJs :=
  ⟨some s.b0, some s.b1, some s.b2, some s.a1, some s.a2,
    some s.x1, some s.x2, some s.y1, some s.y2⟩

/-- `IIRBandBoostFilter.process` under JavaScript semantics: the same
left-associated difference equation and state shift as the source, with
`NaN` poisoning every operation it touches. -/
def IIRBandBoostFilterJs.process (s : IIRBandBoostFilterJs) (x0 : JsVal) :
    JsVal × IIRBandBoostFilterJs :=
  let y0 :=
    jsSub (jsSub (jsAdd (jsAdd (jsMul s.b0 x0) (jsMul s.b1 s.x1))
      (jsMul s.b2 s.x2)) (jsMul s.a1 s.y1)) (jsMul s.a2 s.y2)
  (y0, { s with x2 := s.x1, x1 := x0, y2 := s.y1, y1 := y0 })

/-- The typed-array read `this.delayBuffer[this.delayIndex]`: a `NaN` index or
an out-of-range index yields `undefined`. -/
def jsElemRead (l : List JsVal) (i? : Option ℕ) : JsVal :=
  match i? with
  | none => none
  | some i => (l[i]?).getD none

/-- The typed-array write `this.delayBuffer[this.delayIndex] = input`: at a
`NaN` index it creates a non-element property and at an out-of-range index it
is ignored, so in both cases the elements are unchanged. -/
def jsElemWrite (l : List JsVal) (i? : Option ℕ) (x : JsVal) : List JsVal :=
  match i? with
  | none => l
  | some i => l.set i x

/-- The cursor update `++this.delayIndex; this.delayIndex %= length`: on a
`NaN` cursor it stays `NaN`, and `x % 0` is `NaN` in JavaScript. -/
def jsCursorAdvance (i? : Option ℕ) (len : ℕ) : Option ℕ :=
  match i? with
  | none => none
  | some i => if len = 0 then none else some ((i + 1) % len)

/-- The estimator state with JavaScript numeric values: the cursor is `none`
once it has become `NaN`. -/
structure DelayedPairJs where
  filter1 : IIRBandBoostFilterJs
  filter2 : IIRBandBoostFilterJs
  filter1Out : JsVal
  filter2Out : JsVal
  delayBuffer : List JsVal
  delayIndex : Option ℕ
  powerMean : JsVal

/-- The `DelayedIIRBandBoostFilterPair` constructor under JavaScript
semantics: same fields as `mkDelayedPair`, all initially real. -/
noncomputable def mkDelayedPairJs (note Fs gain : ℝ) : DelayedPairJs :=
  { filter1 := IIRBandBoostFilterJs.ofIIR (mkIIRBandBoostFilter note Fs gain)
    filter2 := IIRBandBoostFilterJs.ofIIR (mkIIRBandBoostFilter note Fs gain)
    filter1Out := some 0
    filter2Out := some 0
    delayBuffer := List.replicate (round (Fs / noteFreq note / 4)).toNat (some 0)
    delayIndex := some 0
    powerMean := some 0 }

/-- `DelayedIIRBandBoostFilterPair.process` under JavaScript semantics,
mirroring the source line for line: read the delay line (possibly
`undefined`), run both filters, overwrite the delay slot, advance the cursor
(`% 0` is `NaN`), and update `powerMean = 0.95*powerMean + (1-0.95)*nowPower`. -/
def DelayedPairJs.process (s : DelayedPairJs) (x : JsVal) :
    (JsVal × JsVal) × DelayedPairJs :=
  let r1 := s.filter1.process x
  let r2 := s.filter2.process (jsElemRead s.delayBuffer s.delayIndex)
  let db := jsElemWrite s.delayBuffer s.delayIndex x
  let nowPower := jsAdd (jsSq r1.1) (jsSq r2.1)
  ((r1.1, r2.1),
    { filter1 := r1.2
      filter2 := r2.2
      filter1Out := r1.1
      filter2Out := r2.1
      delayBuffer := db
      delayIndex := jsCursorAdvance s.delayIndex db.length
      powerMean := jsAdd (jsMul (some 0.95) s.powerMean)
        (jsMul (some (1 - 0.95)) nowPower) })

/-- `getInstantPower()` under JavaScript semantics. -/
def DelayedPairJs.getInstantPower (s : DelayedPairJs) : JsVal :=
  s.powerMean

end Ear

namespace Ear

/-! ### Helper lemmas -/

/-- The center frequency of MIDI note 105 is exactly `440 * 2^3 = 3520` Hz. -/
lemma noteFreq_105 : noteFreq 105 = 3520 := by
  unfold noteFreq
  rw [show ((105 : ℝ) - 69) / 12 = ((3 : ℕ) : ℝ) by norm_num, Real.rpow_natCast]
  norm_num

/-- The center frequency of MIDI note 69 is exactly `440 * 2^0 = 440` Hz. -/
lemma noteFreq_69 : noteFreq 69 = 440 := by
  unfold noteFreq
  rw [show ((69 : ℝ) - 69) / 12 = (0 : ℝ) by norm_num, Real.rpow_zero]
  norm_num

/-- A single `process` step leaves the five coefficients unchanged. -/
lemma process_preserves_coeffs (s : IIRBandBoostFilter) (x : ℝ) :
    ((s.process x).2).b0 = s.b0 ∧ ((s.process x).2).b1 = s.b1 ∧
      ((s.process x).2).b2 = s.b2 ∧ ((s.process x).2).a1 = s.a1 ∧
      ((s.process x).2).a2 = s.a2 :=
  ⟨rfl, rfl, rfl, rfl, rfl⟩

/-- Processing a whole stream leaves the five coefficients unchanged. -/
lemma processList_preserves_coeffs (xs : List ℝ) :
    ∀ s : IIRBandBoostFilter,
      (s.processList xs).b0 = s.b0 ∧ (s.processList xs).b1 = s.b1 ∧
        (s.processList xs).b2 = s.b2 ∧ (s.processList xs).a1 = s.a1 ∧
        (s.processList xs).a2 = s.a2 := by
  induction xs with
  | nil => intro s; exact ⟨rfl, rfl, rfl, rfl, rfl⟩
  | cons b bs ih =>
    intro s
    simpa [IIRBandBoostFilter.processList] using ih (s.process b).2

/-- A filter whose coefficients are the identity transform returns its input. -/
lemma identity_coeffs_process_fst (s : IIRBandBoostFilter)
    (hb0 : s.b0 = 1) (hb1 : s.b1 = 0) (hb2 : s.b2 = 0)
    (ha1 : s.a1 = 0) (ha2 : s.a2 = 0) (x : ℝ) :
    (s.process x).1 = x := by
  simp [IIRBandBoostFilter.process, hb0, hb1, hb2, ha1, ha2]

/-! ### C5 -/

/-- C5: for every `PeakingFilter` whose derived center frequency
`f0 = 440·2^((midiNote-69)/12)` is ≤ 0 or ≥ sampleRate/2, the coefficients are
the identity transform (`b0 = 1`, `b1 = b2 = a1 = a2 = 0`), and consequently
`process(x) = x` for every input `x` and every filter state reached from the
initial state. -/
theorem peaking_identity_passthrough (note Fs gain : ℝ)
    (h : noteFreq note ≤ 0 ∨ Fs / 2 ≤ noteFreq note) :
    (mkIIRBandBoostFilter note Fs gain).b0 = 1 ∧
      (mkIIRBandBoostFilter note Fs gain).b1 = 0 ∧
      (mkIIRBandBoostFilter note Fs gain).b2 = 0 ∧
      (mkIIRBandBoostFilter note Fs gain).a1 = 0 ∧
      (mkIIRBandBoostFilter note Fs gain).a2 = 0 ∧
      ∀ (xs : List ℝ) (x : ℝ),
        (((mkIIRBandBoostFilter note Fs gain).processList xs).process x).1 = x := by
  have hm : mkIIRBandBoostFilter note Fs gain = ⟨1, 0, 0, 0, 0, 0, 0, 0, 0⟩ := by
    rw [mkIIRBandBoostFilter, if_pos h]
  refine ⟨by rw [hm], by rw [hm], by rw [hm], by rw [hm], by rw [hm], ?_⟩
  intro xs x
  obtain ⟨h0, h1, h2, h3, h4⟩ :=
    processList_preserves_coeffs xs (mkIIRBandBoostFilter note Fs gain)
  exact identity_coeffs_process_fst _
    (by rw [h0, hm]) (by rw [h1, hm]) (by rw [h2, hm])
    (by rw [h3, hm]) (by rw [h4, hm]) x

/-- Witness for C5 at midi note 105, sample rate 4000 (so `f0 = 3520 ≥ 2000`). -/
theorem peaking_identity_passthrough_witness :
    (4000 : ℝ) / 2 ≤ noteFreq 105 ∧
      (((mkIIRBandBoostFilter 105 4000 6).processList [1, 2]).process 7).1 = 7 := by
  have hf : (4000 : ℝ) / 2 ≤ noteFreq 105 := by rw [noteFreq_105]; norm_num
  exact ⟨hf, (peaking_identity_passthrough 105 4000 6 (Or.inr hf)).2.2.2.2.2 [1, 2] 7⟩

/-! ### C2 -/

/-- C2 counterexample: the estimator constructed for MIDI note 105 at sample
rate 4000 Hz has `f0 = 3520` and delay length
`round((4000/3520)/4) = round(25/88) = 0` — the source applies no lower clamp,
so the delay buffer is empty. -/
theorem delay_length_zero_at_105_4000 :
    (mkDelayedPair 105 4000 6).delayBuffer.length = 0 := by
  simp only [mkDelayedPair, List.length_replicate]
  rw [noteFreq_105, show (4000 : ℝ) / 3520 / 4 = 25 / 88 by norm_num]
  have hr : round ((25 : ℝ) / 88) = 0 := by
    rw [round_eq]
    rw [show (25 : ℝ) / 88 + 1 / 2 = 69 / 88 by norm_num]
    rw [Int.floor_eq_zero_iff.mpr (by constructor <;> norm_num)]
  rw [hr]
  rfl

/-- C2 amended: the delay buffer length is `round((sampleRate/f0)/4)` with no
lower clamp; it is ≥ 1 (so the cursor advance modulo the length is well
defined) whenever `2·f0 ≤ sampleRate`, which holds for all 88 piano notes at
the usual audio sample rates but not for every `(midiNote, sampleRate)`. -/
theorem delay_length_formula (note Fs gain : ℝ) :
    (mkDelayedPair note Fs gain).delayBuffer.length
        = (round (Fs / noteFreq note / 4)).toNat ∧
      (0 < noteFreq note → 2 * noteFreq note ≤ Fs →
        1 ≤ (mkDelayedPair note Fs gain).delayBuffer.length) := by
  constructor
  · simp [mkDelayedPair]
  · intro hpos hle
    simp only [mkDelayedPair, List.length_replicate]
    have h2 : (1 : ℝ) / 2 ≤ Fs / noteFreq note / 4 := by
      rw [div_div, le_div_iff₀ (by positivity)]
      nlinarith
    have h1 : (1 : ℤ) ≤ round (Fs / noteFreq note / 4) := by
      rw [round_eq, Int.le_floor]
      push_cast
      linarith
    omega

/-- Witness for the amended C2 at midi note 69, sample rate 44100
(`f0 = 440`, delay length ≥ 1). -/
theorem delay_length_formula_witness :
    0 < noteFreq 69 ∧ 2 * noteFreq 69 ≤ 44100 ∧
      1 ≤ (mkDelayedPair 69 44100 6).delayBuffer.length := by
  have h1 : 0 < noteFreq 69 := by rw [noteFreq_69]; norm_num
  have h2 : 2 * noteFreq 69 ≤ 44100 := by rw [noteFreq_69]; norm_num
  exact ⟨h1, h2, (delay_length_formula 69 44100 6).2 h1 h2⟩

/-! ### C9 -/

/-- C9: each call to `PeakingFilter.process(x0)` returns
`y0 = b0·x0 + b1·x1 + b2·x2 − a1·y1 − a2·y2` computed from the current state,
and updates the state exactly by `x2←x1, x1←x0, y2←y1, y1←y0`, leaving the
coefficients untouched and doing nothing else. -/
theorem iir_process_step (s : IIRBandBoostFilter) (x0 : ℝ) :
    s.process x0 =
      (s.b0 * x0 + s.b1 * s.x1 + s.b2 * s.x2 - s.a1 * s.y1 - s.a2 * s.y2,
        { b0 := s.b0, b1 := s.b1, b2 := s.b2, a1 := s.a1, a2 := s.a2,
          x1 := x0, x2 := s.x1,
          y1 := s.b0 * x0 + s.b1 * s.x1 + s.b2 * s.x2 - s.a1 * s.y1 - s.a2 * s.y2,
          y2 := s.y1 }) := rfl

/-! ### C8 -/

/-- One estimator step keeps the smoothed power non-negative:
the update is `0.95·powerMean + 0.05·(out1² + out2²)`. -/
lemma pair_process_powerMean_nonneg (s : DelayedIIRBandBoostFilterPair) (x : ℝ)
    (h : 0 ≤ s.powerMean) : 0 ≤ ((s.process x).2).powerMean := by
  simp only [DelayedIIRBandBoostFilterPair.process]
  have h1 : (0 : ℝ) ≤ ((s.filter1.process x).1) ^ 2 +
      ((s.filter2.process (s.delayBuffer.getD s.delayIndex 0)).1) ^ 2 := by positivity
  nlinarith

/-- Non-negativity of the smoothed power is preserved along any stream. -/
lemma processList_powerMean_nonneg (xs : List ℝ) :
    ∀ s : DelayedIIRBandBoostFilterPair,
      0 ≤ s.powerMean → 0 ≤ (s.processList xs).powerMean := by
  induction xs with
  | nil =>
    intro s h
    simpa [DelayedIIRBandBoostFilterPair.processList] using h
  | cons b bs ih =>
    intro s h
    simpa [DelayedIIRBandBoostFilterPair.processList] using
      ih (s.process b).2 (pair_process_powerMean_nonneg s b h)

/-- Adding `NaN` on the right poisons a JavaScript addition. -/
lemma jsAdd_none_right (a : JsVal) : jsAdd a none = none := by
  cases a <;> rfl

/-- Adding to `NaN` on the left poisons a JavaScript addition. -/
lemma jsAdd_none_left (b : JsVal) : jsAdd none b = none := rfl

/-- Subtracting from `NaN` poisons a JavaScript subtraction. -/
lemma jsSub_none_left (b : JsVal) : jsSub none b = none := rfl

/-- Multiplying by `NaN` on the right poisons a JavaScript multiplication. -/
lemma jsMul_none_right (a : JsVal) : jsMul a none = none := by
  cases a <;> rfl

/-- A biquad fed `undefined`/`NaN` outputs `NaN`, whatever its state. -/
lemma iirJs_process_none (s : IIRBandBoostFilterJs) :
    (s.process none).1 = none := by
  simp [IIRBandBoostFilterJs.process, jsMul_none_right, jsAdd_none_left,
    jsSub_none_left]

/-- One `process` step of an estimator whose delay buffer is empty makes
`powerMean` become `NaN`: the delay-line read is `undefined`, `filter2`
outputs `NaN`, and the `NaN` propagates through `nowPower` into the update
`0.95·powerMean + 0.05·nowPower`. -/
lemma pairJs_empty_delay_poisons (s : DelayedPairJs) (x : JsVal) (j : ℕ)
    (hdb : s.delayBuffer = []) (hdi : s.delayIndex = some j) :
    ((s.process x).2).powerMean = none := by
  simp only [DelayedPairJs.process, hdb, hdi]
  rw [show jsElemRead [] (some j) = none from by simp [jsElemRead]]
  rw [iirJs_process_none]
  simp [jsSq, jsMul_none_right, jsAdd_none_right]

/-- The quarter-wavelength delay at MIDI note 105, sample rate 4000, rounds
to zero samples. -/
lemma round_quarter_4000_3520 : (round ((4000 : ℝ) / 3520 / 4)).toNat = 0 := by
  rw [show (4000 : ℝ) / 3520 / 4 = 25 / 88 by norm_num]
  rw [round_eq, show (25 : ℝ) / 88 + 1 / 2 = 69 / 88 by norm_num]
  rw [Int.floor_eq_zero_iff.mpr (by constructor <;> norm_num)]
  rfl

/-- The quarter-wavelength delay at MIDI note 69, sample rate 44100, has at
least one sample. -/
lemma one_le_round_69_44100 : 1 ≤ (round ((44100 : ℝ) / noteFreq 69 / 4)).toNat := by
  rw [noteFreq_69]
  have h1 : (1 : ℤ) ≤ round ((44100 : ℝ) / 440 / 4) := by
    rw [round_eq, Int.le_floor]
    push_cast
    norm_num
  omega

/-- C8 counterexample: the estimator for MIDI note 105 at sample rate 4000 —
reachable, with an empty delay buffer because the unclamped quarter-wavelength
rounds to 0 — has `getInstantPower()` equal to `NaN` after processing a single
sample, under the JavaScript error semantics the source actually executes:
`delayBuffer[0]` is `undefined`, so `powerMean` becomes `NaN`, and `NaN ≥ 0`
is false, refuting the claim for every estimator and every stream. -/
theorem estimator_power_nan_at_105_4000 :
    ((mkDelayedPairJs 105 4000 6).process (some 1)).2.getInstantPower = none := by
  have hdb : (mkDelayedPairJs 105 4000 6).delayBuffer = [] := by
    show List.replicate (round ((4000 : ℝ) / noteFreq 105 / 4)).toNat (some 0) = []
    rw [noteFreq_105, round_quarter_4000_3520]
    rfl
  exact pairJs_empty_delay_poisons _ _ 0 hdb rfl

/-- C8 amended: for every `DualPhaseNoteEstimator` whose delay buffer is
non-empty (delay length ≥ 1, e.g. whenever `2·f0 ≤ sampleRate`) and every
finite input stream, `getInstantPower()` is ≥ 0: `powerMean` starts at 0 and
every step replaces it with `0.95·powerMean + 0.05·(out1² + out2²)`, which
preserves non-negativity.  The hypothesis marks the regime in which the
real-number model is faithful (every delay-line read in range); with an empty
delay buffer the source instead produces `NaN` (see the counterexample). -/
theorem estimator_power_nonneg_delay (note Fs gain : ℝ) (xs : List ℝ)
    (_hd : 1 ≤ (mkDelayedPair note Fs gain).delayBuffer.length) :
    (mkDelayedPair note Fs gain).powerMean = 0 ∧
      0 ≤ ((mkDelayedPair note Fs gain).processList xs).getInstantPower := by
  refine ⟨rfl, ?_⟩
  exact processList_powerMean_nonneg xs _ (le_of_eq rfl)

/-- Witness for the amended C8 at MIDI note 69, sample rate 44100 (delay
length 25 ≥ 1). -/
theorem estimator_power_nonneg_delay_witness :
    1 ≤ (mkDelayedPair 69 44100 6).delayBuffer.length ∧
      0 ≤ ((mkDelayedPair 69 44100 6).processList [1, 2]).getInstantPower := by
  have hd : 1 ≤ (mkDelayedPair 69 44100 6).delayBuffer.length := by
    show 1 ≤ (List.replicate (round ((44100 : ℝ) / noteFreq 69 / 4)).toNat (0 : ℝ)).length
    rw [List.length_replicate]
    exact one_le_round_69_44100
  exact ⟨hd, (estimator_power_nonneg_delay 69 44100 6 [1, 2] hd).2⟩

/-! ### C10 -/

/-- C10: a power-snapshot request issued before any audio sample has been
processed is answered with a buffer of 88 values all equal to 0, with the
request id echoed back: every freshly constructed estimator has
`powerMean = 0`, `getInstantPower` returns it unchanged, and the `get-data`
handler fills slots 0..87 from `filters[i].getInstantPower()` in ascending
index order. -/
theorem ear_initial_power_snapshot (Fs : ℝ) (rid : ℕ) (buf : List ℝ) :
    earHandleGetData (earFilters Fs) rid (some buf)
      = some (List.replicate 88 0, rid) := by
  have hfill : earFillPowerData (earFilters Fs) = List.replicate 88 0 := by
    refine List.eq_replicate_iff.mpr ⟨by simp [earFillPowerData], ?_⟩
    intro b hb
    simp only [earFillPowerData, List.mem_map, List.mem_range] at hb
    obtain ⟨i, hi, hb⟩ := hb
    rw [← hb]
    rw [List.getD_eq_getElem?_getD, earFilters, List.getElem?_map,
      List.getElem?_range hi]
    rfl
  rw [earHandleGetData, hfill]

/-! ### C3 -/

/-- C3 (code bug): `OscWorker.handleMessage` never posts any reply at all for
a protocol message.  The client (`OscRender._getOscData`) sends
`{message:'dump', requestId, buffer}` while the worker tests
`event.data.type === 'dump'`; and even for a message with `type:'dump'`, the
guard `buffer && buffer.length > 0` is always false because an `ArrayBuffer`
has no `length` property.  The reply, were it ever produced, carries no
`requestId` field (see `OscReply`). -/
theorem osc_worker_never_replies (rb : RotatingAudioBuffer) (m : OscMsg) :
    oscWorkerHandleMessage rb m = none := by
  rcases m with ⟨t, ms, rid, buf⟩
  by_cases h : t = some "dump"
  · cases buf <;> simp [oscWorkerHandleMessage, jsArrayBufferLengthProp, h]
  · simp [oscWorkerHandleMessage, h]

/-! ### C4 -/

/-- C4 counterexample: in `OscRender._getOscData`, when `postMessage` throws on
the very first request (id 0), the empty `catch {}` swallows the error: the
pending entry for id 0 remains in the map and no rejection event is produced,
contradicting the claim that the promise is rejected immediately and the entry
removed. -/
theorem osc_send_failure_not_rejected :
    oscRequestStep initReqState true = (⟨[0], 1⟩, []) := by decide

/-- C4 amended: only for power-snapshot requests (`EarDataRequester`) does a
`postMessage` failure reject the promise immediately and remove the pending
entry; for waveform-snapshot requests (`OscRender._getOscData`) the exception
is swallowed by an empty `catch`, the pending entry remains, and the promise
is never settled. -/
theorem transport_failure_settlement (s : ReqState)
    (h : s.counter ∉ s.pending) :
    earRequestStep s true = (⟨s.pending, s.counter + 1⟩, [Ev.rejected s.counter]) ∧
      oscRequestStep s true = (⟨s.pending ++ [s.counter], s.counter + 1⟩, []) := by
  constructor
  · simp only [earRequestStep, mapSet, if_neg h, if_pos rfl]
    rw [List.erase_append_right _ h]
    simp
  · simp [oscRequestStep, mapSet, h]

/-- Witness for the amended C4 at the initial requester state. -/
theorem transport_failure_settlement_witness :
    earRequestStep initReqState true = (⟨[], 1⟩, [Ev.rejected 0]) ∧
      oscRequestStep initReqState true = (⟨[0], 1⟩, []) := by
  have h := transport_failure_settlement initReqState (by decide)
  simpa [initReqState] using h

end Ear

namespace Ear

/-! ### C1 -/

/-- Feeding a block sample-by-sample to all filters (outer loop over samples,
inner loop over filters) updates each filter independently: filter `i` ends up
having consumed exactly the samples of the block, in order. -/
lemma foldl_stepAllFilters_getElem? (block : List ℝ) :
    ∀ (fs : List DelayedIIRBandBoostFilterPair) (i : ℕ),
      (block.foldl stepAllFilters fs)[i]? =
        fs[i]?.map (fun f => block.foldl (fun g x => (g.process x).2) f) := by
  induction block with
  | nil =>
    intro fs i
    simp only [List.foldl_nil]
    cases fs[i]? <;> rfl
  | cons b bs ih =>
    intro fs i
    simp only [List.foldl_cons]
    rw [ih (stepAllFilters fs b) i]
    rw [stepAllFilters, List.getElem?_map]
    cases fs[i]? <;> rfl

/-- C1 (code bug): for every call with a non-empty input channel, each of the
88 estimators ends up having consumed exactly the samples of the block, in
order, via `process` — but the ring buffer does NOT consume the block:
`OscWorker.process` passes `input[0][0]` (the first sample, a Number) to
`rotatingBuffer.write`, whose loop bound `data.length` is `undefined` on a
Number, so zero iterations run and the ring buffer is returned unchanged,
contradicting the claim that it consumes exactly the samples of the block. -/
theorem filterBank_processBlock_divergence (fb : FilterBank) (block : List ℝ)
    (h : block ≠ []) :
    (fb.processBlock block).ringBuffer = fb.ringBuffer ∧
      ∀ i : ℕ,
        (fb.processBlock block).filters[i]? =
          fb.filters[i]?.map
            (fun f => block.foldl (fun g x => (g.process x).2) f) := by
  have hne : block.isEmpty = false := by
    cases block with
    | nil => exact absurd rfl h
    | cons b bs => rfl
  constructor
  · simp [FilterBank.processBlock, oscProcessChannel,
      RotatingAudioBuffer.writeNumberArg, hne]
  · intro i
    simp only [FilterBank.processBlock, earProcessChannel, hne, Bool.false_eq_true,
      if_false]
    exact foldl_stepAllFilters_getElem? block fb.filters i

/-- Witness for C1 on the concrete block `[1, 2]`: the ring buffer stays at
its initial state, which differs from the state an actual `write` of the
block would have produced, while estimator 0 has consumed both samples. -/
theorem filterBank_processBlock_divergence_witness :
    ((FilterBank.mk [defaultPair] (mkRotatingAudioBuffer 2)).processBlock
          [1, 2]).ringBuffer
        = mkRotatingAudioBuffer 2 ∧
      ((FilterBank.mk [defaultPair] (mkRotatingAudioBuffer 2)).processBlock
          [1, 2]).ringBuffer
        ≠ (mkRotatingAudioBuffer 2).write [1, 2] ∧
      ((FilterBank.mk [defaultPair] (mkRotatingAudioBuffer 2)).processBlock
          [1, 2]).filters[0]?
        = some ([1, 2].foldl (fun g x => (g.process x).2) defaultPair) := by
  have h :=
    filterBank_processBlock_divergence
      (FilterBank.mk [defaultPair] (mkRotatingAudioBuffer 2)) [1, 2]
      (by simp)
  refine ⟨h.1, ?_, by rw [h.2 0]; rfl⟩
  rw [h.1]
  intro heq
  have hbuf := congrArg RotatingAudioBuffer.buffer heq
  simp [mkRotatingAudioBuffer, RotatingAudioBuffer.write,
    RotatingAudioBuffer.write1] at hbuf

end Ear

namespace Ear

/-! ### C6 -/

/-- `write` never changes the `length` field nor the backing store's length. -/
lemma write_lengths (data : List ℝ) :
    ∀ s : RotatingAudioBuffer,
      (s.write data).length = s.length ∧
        (s.write data).buffer.length = s.buffer.length := by
  induction data with
  | nil => intro s; exact ⟨rfl, rfl⟩
  | cons b bs ih =>
    intro s
    have h := ih (s.write1 b)
    simp only [RotatingAudioBuffer.write, List.foldl_cons] at h ⊢
    simpa [RotatingAudioBuffer.write1] using h

/-- Splitting a write into two consecutive writes. -/
lemma write_append (s : RotatingAudioBuffer) (l1 l2 : List ℝ) :
    s.write (l1 ++ l2) = (s.write l1).write l2 :=
  List.foldl_append RotatingAudioBuffer.write1 s l1 l2

/-- After writing `hist` into a fresh buffer the write cursor is
`hist.length % capacity`. -/
lemma write_fresh_writeIndex (C : ℕ) (hist : List ℝ) :
    ((mkRotatingAudioBuffer C).write hist).writeIndex = hist.length % C := by
  induction hist using List.reverseRecOn with
  | nil => simp [RotatingAudioBuffer.write, mkRotatingAudioBuffer]
  | append_singleton ys x ih =>
    rw [write_append]
    show ((((mkRotatingAudioBuffer C).write ys).write1 x).writeIndex) = _
    rw [RotatingAudioBuffer.write1]
    simp only [ih, List.length_append, List.length_singleton]
    have h1 : (((mkRotatingAudioBuffer C).write ys).length) = C :=
      (write_lengths ys (mkRotatingAudioBuffer C)).1
    rw [h1, Nat.mod_add_mod]

/-- After writing `hist` into a fresh buffer, the last `min (hist.length) C`
samples of `hist` survive in the backing store: the sample written `k` steps
before the end sits at slot `(hist.length - k) % C`. -/
lemma write_fresh_suffix (C : ℕ) (hC : 0 < C) (hist : List ℝ) :
    ∀ k : ℕ, 1 ≤ k → k ≤ C → k ≤ hist.length →
      ((mkRotatingAudioBuffer C).write hist).buffer.getD ((hist.length - k) % C) 0
        = hist.getD (hist.length - k) 0 := by
  induction hist using List.reverseRecOn with
  | nil =>
    intro k h1 _ h3
    simp only [List.length_nil] at h3
    omega
  | append_singleton ys x ih =>
    intro k h1 h2 h3
    set n := ys.length with hn
    have hlen : (ys ++ [x]).length = n + 1 := by simp
    have hblen : (((mkRotatingAudioBuffer C).write ys).buffer.length) = C := by
      have := (write_lengths ys (mkRotatingAudioBuffer C)).2
      simpa [mkRotatingAudioBuffer] using this
    rw [write_append]
    show (((mkRotatingAudioBuffer C).write ys).write1 x).buffer.getD _ 0 = _
    rw [RotatingAudioBuffer.write1]
    simp only [write_fresh_writeIndex, hlen]
    by_cases hk : k = 1
    · subst hk
      have hidx : n + 1 - 1 = n := by omega
      rw [hidx]
      rw [List.getD_eq_getElem?_getD,
        List.getElem?_set_self (by rw [hblen]; exact Nat.mod_lt _ hC)]
      rw [List.getD_eq_getElem?_getD, List.getElem?_concat_length]
    · have hk2 : 2 ≤ k := by omega
      have hj3 : k - 1 ≤ n := by omega
      have hidx : n + 1 - k = n - (k - 1) := by omega
      rw [hidx]
      have hne : (n - (k - 1)) % C ≠ n % C := by
        intro heq
        have hmod : n - (k - 1) ≡ n [MOD C] := heq
        rw [Nat.modEq_iff_dvd' (Nat.sub_le _ _)] at hmod
        have hsub : n - (n - (k - 1)) = k - 1 := by omega
        rw [hsub] at hmod
        have := Nat.le_of_dvd (by omega) hmod
        omega
      rw [List.getD_eq_getElem?_getD, List.getElem?_set_ne hne.symm,
        ← List.getD_eq_getElem?_getD]
      have hih := ih (k - 1) (by omega) (by omega) hj3
      rw [hih]
      rw [List.getD_eq_getElem?_getD, List.getD_eq_getElem?_getD,
        List.getElem?_append_left (by omega)]

/-- Closed form of the `read` loop when the start index is in range. -/
lemma readGo_closed (buf : List ℝ) (C : ℕ) (hC : 0 < C) :
    ∀ (L r : ℕ), r < C →
      RotatingAudioBuffer.readGo buf C r L
        = (List.range L).map (fun i => buf.getD ((r + i) % C) 0) := by
  intro L
  induction L with
  | zero => intro r _; rfl
  | succ L ih =>
    intro r hr
    rw [RotatingAudioBuffer.readGo, List.range_succ_eq_map]
    rw [List.map_cons, List.map_map]
    have h0 : (r + 0) % C = r := by
      rw [Nat.add_zero, Nat.mod_eq_of_lt hr]
    rw [h0]
    congr 1
    rw [ih ((r + 1) % C) (Nat.mod_lt _ hC)]
    refine List.map_congr_left ?_
    intro i _
    show buf.getD (((r + 1) % C + i) % C) 0 = buf.getD ((r + Nat.succ i) % C) 0
    rw [Nat.mod_add_mod]
    congr 2
    omega

/-- The start index of `read`, computed with JavaScript remainder semantics,
reduces to natural-number arithmetic when the target fits the capacity. -/
lemma read_start_toNat (C wI L : ℕ) (hL : L ≤ C) :
    (((wI : ℤ) - L + C).tmod (C : ℤ)).toNat = (wI + C - L) % C := by
  have hcast : ((wI : ℤ) - L + C) = ((wI + C - L : ℕ) : ℤ) := by
    omega
  rw [hcast, Int.tmod_eq_emod (by positivity) (by positivity)]
  rw [← Int.natCast_mod, Int.toNat_natCast]

/-- C6 core: reading `L ≤ capacity` samples after writing `hist`
(`L ≤ hist.length`) into a fresh buffer yields the last `L` samples written,
oldest first. -/
lemma read_write_fresh (C : ℕ) (hC : 0 < C) (hist : List ℝ) (L : ℕ)
    (hLC : L ≤ C) (hLn : L ≤ hist.length) :
    (((mkRotatingAudioBuffer C).write hist).read L).1
      = hist.drop (hist.length - L) := by
  set n := hist.length with hn
  set s := (mkRotatingAudioBuffer C).write hist with hs
  have hslen : s.length = C := by
    have := (write_lengths hist (mkRotatingAudioBuffer C)).1
    simpa [mkRotatingAudioBuffer] using this
  have hblen : s.buffer.length = C := by
    have := (write_lengths hist (mkRotatingAudioBuffer C)).2
    simpa [mkRotatingAudioBuffer] using this
  have hwi : s.writeIndex = n % C := write_fresh_writeIndex C hist
  show RotatingAudioBuffer.readGo s.buffer s.length
      ((((s.writeIndex : ℤ) - L + s.length).tmod (s.length : ℤ)).toNat) L
      = hist.drop (n - L)
  rw [hslen, hwi, read_start_toNat C (n % C) L hLC]
  rw [readGo_closed s.buffer C hC L _ (Nat.mod_lt _ hC)]
  apply List.ext_getElem
  · simp only [List.length_map, List.length_range, List.length_drop]
    omega
  · intro i hi1 hi2
    have hiL : i < L := by simpa using hi1
    have hidx :
        ((n % C + C - L) % C + i) % C = (n - L + i) % C := by
      rw [Nat.mod_add_mod]
      have h1 : n % C + C - L + i = n % C + (C - L + i) := by omega
      rw [h1, Nat.mod_add_mod]
      have h2 : n + (C - L + i) = n - L + i + C := by omega
      rw [h2, Nat.add_mod_right]
    rw [List.getElem_map, List.getElem_range, List.getElem_drop]
    rw [hidx]
    have hsuf := write_fresh_suffix C hC hist (L - i) (by omega) (by omega) (by omega)
    have heq : n - (L - i) = n - L + i := by omega
    rw [heq] at hsuf
    rw [hsuf]
    exact List.getD_eq_getElem hist 0 (by omega)



/-- C6: for the ring buffer with fixed capacity: after writing any sequence
of `N ≤ capacity` values into a fresh buffer, `read` into a length-`N` target
returns exactly that sequence in order; after writing more than `capacity`
values, `read` into a length-`capacity` target returns exactly the last
`capacity` values written, oldest first; and `read` leaves the buffer
contents and `writeIndex` unchanged. -/
theorem ring_buffer_roundtrip :
    (∀ (C : ℕ) (xs : List ℝ), 0 < C → xs.length ≤ C →
        (((mkRotatingAudioBuffer C).write xs).read xs.length).1 = xs)
    ∧ (∀ (C : ℕ) (xs : List ℝ), 0 < C → C < xs.length →
        (((mkRotatingAudioBuffer C).write xs).read C).1 = xs.drop (xs.length - C))
    ∧ (∀ (s : RotatingAudioBuffer) (L : ℕ), (s.read L).2 = s) := by
  refine ⟨?_, ?_, ?_⟩
  · intro C xs hC hlen
    rw [read_write_fresh C hC xs xs.length hlen le_rfl]
    simp
  · intro C xs hC hlen
    exact read_write_fresh C hC xs C le_rfl (le_of_lt hlen)
  · intro s L
    rfl

/-- Witness for C6. -/
theorem ring_buffer_roundtrip_witness :
    (((mkRotatingAudioBuffer 3).write [1, 2, 4]).read 3).1 = [1, 2, 4] ∧
      (((mkRotatingAudioBuffer 3).write [1, 2, 4, 8, 16]).read 3).1 = [4, 8, 16] ∧
      (((mkRotatingAudioBuffer 3).write [1, 2, 4]).read 3).2
        = (mkRotatingAudioBuffer 3).write [1, 2, 4] := by
  refine ⟨?_, ?_, ring_buffer_roundtrip.2.2 _ 3⟩
  · have h := ring_buffer_roundtrip.1 3 [1, 2, 4] (by norm_num) (by simp)
    simpa using h
  · have h := ring_buffer_roundtrip.2.1 3 [1, 2, 4, 8, 16] (by norm_num) (by simp)
    simpa using h

end Ear

namespace Ear

/-! ### C7 -/

/-- Settlement counts add over concatenated event logs. -/
lemma settles_append (j : ℕ) (l1 l2 : List Ev) :
    settles j (l1 ++ l2) = settles j l1 + settles j l2 :=
  List.countP_append _ _ _

/-- Every pending id is below the id counter. -/
def ReqInv (s : ReqState) : Prop :=
  ∀ k ∈ s.pending, k < s.counter

/-- The id counter never decreases. -/
lemma reqStep_counter_le (s : ReqState) (op : ReqOp) :
    s.counter ≤ (reqStep s op).1.counter := by
  cases op with
  | request mt =>
    simp only [reqStep, earRequestStep]
    split <;> simp
  | response j =>
    simp only [reqStep]
    split <;> simp
  | destroy => exact le_rfl

/-- The id counter never decreases along a run. -/
lemma reqRun_counter_le (ops : List ReqOp) :
    ∀ s : ReqState, s.counter ≤ (reqRun s ops).1.counter := by
  induction ops with
  | nil => intro s; exact le_rfl
  | cons op ops ih =>
    intro s
    exact le_trans (reqStep_counter_le s op) (ih (reqStep s op).1)

/-- Membership in the key set after a `Map.set`. -/
lemma mem_mapSet {l : List ℕ} {c k : ℕ} : k ∈ mapSet l c ↔ k ∈ l ∨ k = c := by
  unfold mapSet
  split
  · rename_i hc
    constructor
    · exact Or.inl
    · rintro (h | rfl)
      · exact h
      · exact hc
  · simp

/-- The invariant is preserved by every step. -/
lemma reqStep_inv (s : ReqState) (op : ReqOp) (h : ReqInv s) :
    ReqInv (reqStep s op).1 := by
  cases op with
  | request mt =>
    simp only [reqStep, earRequestStep]
    split <;> intro k hk
    · have hk' := mem_mapSet.mp (List.mem_of_mem_erase hk)
      rcases hk' with h1 | rfl
      · exact lt_trans (h k h1) (Nat.lt_succ_self _)
      · exact Nat.lt_succ_self _
    · rcases mem_mapSet.mp hk with h1 | rfl
      · exact lt_trans (h k h1) (Nat.lt_succ_self _)
      · exact Nat.lt_succ_self _
  | response j =>
    simp only [reqStep]
    split <;> intro k hk
    · exact h k (List.mem_of_mem_erase hk)
    · exact h k hk
  | destroy =>
    intro k hk
    simp [reqStep] at hk



/-- Settlement count of a single resolution event. -/
lemma settles_resolved (j k : ℕ) :
    settles j [Ev.resolved k] = if k = j then 1 else 0 := by
  simp [settles, List.countP_cons, isSettle]

/-- Settlement count of a single rejection event. -/
lemma settles_rejected (j k : ℕ) :
    settles j [Ev.rejected k] = if k = j then 1 else 0 := by
  simp [settles, List.countP_cons, isSettle]

/-- A warning settles nothing. -/
lemma settles_warned (j k : ℕ) : settles j [Ev.warned k] = 0 := by
  simp [settles, List.countP_cons, isSettle]

/-- Settlement accounting for one step: the settle events it emits plus the
pending multiplicity afterwards equal the pending multiplicity before plus one
exactly when the step freshly creates the id `j`. -/
lemma reqStep_count (s : ReqState) (op : ReqOp) (j : ℕ) (hInv : ReqInv s) :
    settles j (reqStep s op).2 + (reqStep s op).1.pending.count j
      = s.pending.count j
        + (if s.counter ≤ j ∧ j < (reqStep s op).1.counter then 1 else 0) := by
  have hc : s.counter ∉ s.pending := fun hmem => lt_irrefl _ (hInv _ hmem)
  have hset : mapSet s.pending s.counter = s.pending ++ [s.counter] := by
    rw [mapSet, if_neg hc]
  cases op with
  | request mt =>
    cases mt with
    | true =>
      have hstep : reqStep s (ReqOp.request true)
          = (⟨s.pending, s.counter + 1⟩, [Ev.rejected s.counter]) := by
        simp only [reqStep, earRequestStep, if_pos rfl, hset]
        rw [List.erase_append_right _ hc]
        simp
      rw [hstep, settles_rejected]
      dsimp only
      by_cases hj : s.counter = j <;> split_ifs <;> omega
    | false =>
      have hstep : reqStep s (ReqOp.request false)
          = (⟨s.pending ++ [s.counter], s.counter + 1⟩, []) := by
        simp [reqStep, earRequestStep, hset]
      rw [hstep]
      dsimp only
      show 0 + (s.pending ++ [s.counter]).count j = _
      rw [List.count_append]
      have hsing : ([s.counter].count j) = if s.counter = j then 1 else 0 := by
        by_cases hj : s.counter = j <;> simp [List.count_singleton, hj]
      rw [hsing]
      by_cases hj : s.counter = j <;> split_ifs <;> omega
  | response k =>
    by_cases hk : k ∈ s.pending
    · have hklt : k < s.counter := hInv k hk
      simp only [reqStep, if_pos hk]
      rw [settles_resolved]
      by_cases hj : k = j
      · subst hj
        have hpos : 0 < s.pending.count k := List.count_pos_iff.mpr hk
        rw [List.count_erase_self]
        split_ifs <;> omega
      · rw [List.count_erase_of_ne (fun h => hj h.symm)]
        split_ifs <;> omega
    · simp only [reqStep, if_neg hk]
      rw [settles_warned]
      split_ifs <;> omega
  | destroy =>
    simp only [reqStep]
    have hmap : settles j (s.pending.map Ev.rejected) = s.pending.count j := by
      rw [settles, List.countP_map]
      show s.pending.countP (fun k => decide (k = j)) = _
      rw [show s.pending.count j = s.pending.countP (fun k => k == j) from rfl]
      refine List.countP_congr ?_
      intro k _
      simp [beq_iff_eq]
    rw [hmap]
    simp only [List.count_nil]
    split_ifs <;> omega



/-- Settlement accounting along a whole run. -/
lemma reqRun_count (ops : List ReqOp) :
    ∀ s : ReqState, ReqInv s → ∀ j : ℕ,
      settles j (reqRun s ops).2 + (reqRun s ops).1.pending.count j
        = s.pending.count j
          + (if s.counter ≤ j ∧ j < (reqRun s ops).1.counter then 1 else 0) := by
  induction ops with
  | nil =>
    intro s _ j
    simp only [reqRun]
    rw [show settles j [] = 0 from rfl]
    split_ifs <;> omega
  | cons op ops ih =>
    intro s hInv j
    have h1 := reqStep_count s op j hInv
    have h2 := ih (reqStep s op).1 (reqStep_inv s op hInv) j
    have hm1 : s.counter ≤ (reqStep s op).1.counter := reqStep_counter_le s op
    have hm2 : (reqStep s op).1.counter ≤ (reqRun (reqStep s op).1 ops).1.counter :=
      reqRun_counter_le ops _
    simp only [reqRun]
    rw [settles_append]
    split_ifs at h1 h2 ⊢ <;> omega

/-- C7: in the snapshot requester (`EarDataRequester`), each request id is
settled (resolved or rejected) at most once — and, since the run-accounting
equation forces every id below the final counter to be settled or still
pending, exactly once whenever the run ends in `destroy` —; a response
carrying an id with no pending request is logged (`console.warn`) and
discarded without resolving anything; and `destroy` rejects every outstanding
request and clears the pending map. -/
theorem requester_settlement :
    (∀ (ops : List ReqOp) (j : ℕ),
        settles j (reqRun initReqState ops).2
            + (reqRun initReqState ops).1.pending.count j
          = if j < (reqRun initReqState ops).1.counter then 1 else 0)
    ∧ (∀ (s : ReqState) (j : ℕ), j ∉ s.pending →
        reqStep s (ReqOp.response j) = (s, [Ev.warned j]))
    ∧ (∀ s : ReqState,
        reqStep s ReqOp.destroy = (⟨[], s.counter⟩, s.pending.map Ev.rejected)) := by
  refine ⟨?_, ?_, ?_⟩
  · intro ops j
    have h := reqRun_count ops initReqState (fun k hk => by simp [initReqState] at hk) j
    simp only [initReqState] at h ⊢
    rw [h, List.count_nil]
    simp [Nat.zero_le]
  · intro s j hj
    simp [reqStep, hj]
  · intro s
    rfl

/-- Witness for C7: an unknown-id response at the initial state is warned and
discarded, and a short concrete run (one request whose send throws, then
destroy) settles id 0 exactly once. -/
theorem requester_settlement_witness :
    reqStep initReqState (ReqOp.response 5) = (initReqState, [Ev.warned 5]) ∧
      settles 0 (reqRun initReqState [ReqOp.request true, ReqOp.destroy]).2
          + (reqRun initReqState
              [ReqOp.request true, ReqOp.destroy]).1.pending.count 0
        = 1 := by
  constructor
  · exact requester_settlement.2.1 initReqState 5 (by simp [initReqState])
  · have h := requester_settlement.1 [ReqOp.request true, ReqOp.destroy] 0
    rw [h]
    decide

end Ear
